import Mathlib

/-!
Verification development for the Moxy intercepting-proxy repository.

The repository's visible sources are its README (documenting the proxy port
and the on-disk database layout) and the frontend component `AppTabs.tsx`.
The backend components (Resender Engine, Project Store, Certificate Authority
Manager, Flow Capture Pipeline, Connection Handler) are described by the
specification but their code is not present under `src/`; the definitions
below that embed them are modelled from the specification's words, as their
doc comments state.  `AppTabs.tsx` is embedded directly from its source.
-/

namespace Moxy

/-! ## Data model (spec §3) -/

/-- Modelled from the spec: an HTTP request as the Resender Engine sees it —
method, URL, ordered headers (duplicate keys allowed), raw body bytes. -/
structure HttpRequest where
  method : String
  url : String
  headers : List (String × String)
  body : List Nat
  deriving DecidableEq

/-- Modelled from the spec: an HTTP response — status, headers, body bytes. -/
structure HttpResponse where
  status : Nat
  headers : List (String × String)
  body : List Nat
  deriving DecidableEq

/-- Modelled from the spec: one captured exchange ("Flow"): unique id,
project id, request, optional response, `sourceFlowId` (`none` for originally
captured flows, set for resend-derived flows), truncation/parse flags and an
error field for failed resend attempts. -/
structure Flow where
  id : Nat
  projectId : Nat
  request : HttpRequest
  response : Option HttpResponse
  sourceFlowId : Option Nat
  bodyTruncated : Bool
  parseError : Bool
  error : Option String
  deriving DecidableEq

/-! ## Resender Engine (spec §4.5) — the backend code is absent from src/ -/

/-- Modelled from the spec: field-level overrides for a resend; a `none`
field means "absent from overrides" and preserves the base value. -/
structure Overrides where
  method : Option String
  url : Option String
  headers : Option (List (String × String))
  body : Option (List Nat)
  deriving DecidableEq

/-- Modelled from the spec: builds the outgoing request from the base flow's
request with field-level overrides applied — an override replaces the field,
absence of a field in overrides preserves the base value. -/
def applyOverrides (base : HttpRequest) (o : Overrides) : HttpRequest :=
  { method := o.method.getD base.method
    url := o.url.getD base.url
    headers := o.headers.getD base.headers
    body := o.body.getD base.body }

/-- Modelled from the spec: the ways a resend attempt can fail at the network
layer — connection/DNS failure, TLS failure, timeout. -/
inductive NetError where
  | connectionFailed
  | dnsFailure
  | tlsFailure
  | timeout
  deriving DecidableEq

/-- Modelled from the spec: the human-readable error text recorded on a Flow
whose resend attempt failed. -/
def describeNetError : NetError → String
  | .connectionFailed => "connection failed"
  | .dnsFailure => "DNS resolution failed"
  | .tlsFailure => "TLS failure"
  | .timeout => "timeout"

/-- Modelled from the spec: `resend(baseFlow, overrides)` builds the outgoing
request by applying the overrides, performs the network attempt (represented
here by its outcome `att`), and returns a new Flow with
`sourceFlowId = baseFlow.id`.  A failed attempt is surfaced as a Flow whose
`error` field is populated — never as an exception: the function is total. -/
def resend (nextId : Nat) (baseFlow : Flow) (o : Overrides)
    (att : Except NetError HttpResponse) : Flow :=
  let req := applyOverrides baseFlow.request o
  match att with
  | .ok resp =>
      { id := nextId, projectId := baseFlow.projectId, request := req
        response := some resp, sourceFlowId := some baseFlow.id
        bodyTruncated := false, parseError := false, error := none }
  | .error e =>
      { id := nextId, projectId := baseFlow.projectId, request := req
        response := none, sourceFlowId := some baseFlow.id
        bodyTruncated := false, parseError := false
        error := some (describeNetError e) }

/-! ## Project Store flow operations (spec §4.4) — code absent from src/ -/

/-- Modelled from the spec: storage-level lookup errors. -/
inductive StoreError where
  | notFound
  | projectNotFound
  | renameConflict
  deriving DecidableEq

/-- Modelled from the spec: one project's storage unit viewed as the ordered
list of its persisted flows plus the next fresh flow id. -/
structure ProjectStore where
  flows : List Flow
  nextId : Nat
  deriving DecidableEq

/-- Modelled from the spec: `append(projectId, flow)` — a durable write that
assigns a fresh id and appends the record; existing records are untouched. -/
def ProjectStore.append (st : ProjectStore) (f : Flow) : ProjectStore × Nat :=
  ({ flows := st.flows ++ [{ f with id := st.nextId }], nextId := st.nextId + 1 },
   st.nextId)

/-- Modelled from the spec: `query(projectId, filter)` — returns the stored
flows of the project in capture order; purely a read. -/
def ProjectStore.query (st : ProjectStore) (pid : Nat) : List Flow :=
  st.flows.filter (fun f => f.projectId == pid)

/-- Modelled from the spec: `get(projectId, flowId)` — fails with `NotFound`
if absent; purely a read. -/
def ProjectStore.get (st : ProjectStore) (pid fid : Nat) : Except StoreError Flow :=
  match st.flows.find? (fun f => f.projectId == pid && f.id == fid) with
  | some f => .ok f
  | none => .error .notFound

/-- Modelled from the spec: a resend persisted through the store — the new
Flow produced by `resend` is appended as a new record; the base flow and all
other existing records are untouched. -/
def ProjectStore.resendOp (st : ProjectStore) (baseFlow : Flow) (o : Overrides)
    (att : Except NetError HttpResponse) : ProjectStore × Flow :=
  let f := resend st.nextId baseFlow o att
  ({ flows := st.flows ++ [f], nextId := st.nextId + 1 }, f)

/-- Every flow a `get` returns is one of the fully persisted records of the
store — `get` never observes a half-written flow. -/
def getObservesStored (st : ProjectStore) (pid fid : Nat) : Prop :=
  match st.get pid fid with
  | .ok f => f ∈ st.flows
  | .error _ => True

/-! ## Catalog and per-project storage units (spec §6 "Storage layout",
README "Database Structure") — the Project Store code is absent from src/ -/

/-- Modelled from the spec and README: a project's catalog entry — name,
sanitized storage-unit key, creation timestamp. -/
structure ProjectMeta where
  id : Nat
  name : String
  storageKey : String
  createdAt : Nat
  deriving DecidableEq

/-- Modelled from the README: project database files are "named after
project, sanitized" — non-alphanumeric characters are replaced. -/
def sanitizeChar (c : Char) : Char :=
  if c.isAlphanum then c else '_'

/-- Modelled from the README: the sanitized storage-unit key derived from a
project name. -/
def sanitize (s : String) : String :=
  String.mk (s.data.map sanitizeChar)

/-- Modelled from the spec: the persistent layout — one catalog store holding
project metadata, and one separate storage unit (keyed by the sanitized
project name) per project holding that project's flows. -/
structure Catalog where
  projects : List ProjectMeta
  units : List (String × List Flow)
  deriving DecidableEq

/-- The storage unit stored under a given key, if any. -/
def unitFor (cat : Catalog) (k : String) : Option (List Flow) :=
  (cat.units.find? (fun u => u.1 == k)).map (fun u => u.2)

/-- Catalog lookup of a project's metadata by project id. -/
def lookupProject (cat : Catalog) (pid : Nat) : Option ProjectMeta :=
  cat.projects.find? (fun p => p.id == pid)

/-- Whether some project already uses the given storage key. -/
def keyInUse (cat : Catalog) (k : String) : Bool :=
  cat.projects.any (fun p => p.storageKey == k)

/-- Modelled from the spec: `createProject` adds a catalog entry whose
storage key is the sanitized name and creates that project's (empty) storage
unit. -/
def createProject (cat : Catalog) (pid : Nat) (name : String) (now : Nat) : Catalog :=
  { projects := cat.projects ++
      [{ id := pid, name := name, storageKey := sanitize name, createdAt := now }]
    units := cat.units ++ [(sanitize name, [])] }

/-- Modelled from the spec: the single atomic migration step a successful
rename performs — the catalog entry's name and storage key change, and the
storage unit moves from the old key to the new key, all in one step. -/
def applyRename (cat : Catalog) (pid : Nat) (oldKey newName newKey : String) : Catalog :=
  { projects := cat.projects.map (fun q =>
      if q.id == pid then { q with name := newName, storageKey := newKey } else q)
    units := cat.units.map (fun u =>
      if u.1 == oldKey then (newKey, u.2) else u) }

/-- Modelled from the spec: `renameProject` — when the target storage key is
already in use it fails with `RenameConflict` and nothing changes; otherwise
it atomically migrates the storage unit to the new key (renaming the database
file consistently with the catalog entry, per the README). -/
def renameProject (cat : Catalog) (pid : Nat) (newName : String) :
    Except StoreError Catalog :=
  match lookupProject cat pid with
  | none => .error .projectNotFound
  | some p =>
      let newKey := sanitize newName
      if newKey == p.storageKey then
        .ok (applyRename cat pid p.storageKey newName newKey)
      else if keyInUse cat newKey then
        .error .renameConflict
      else
        .ok (applyRename cat pid p.storageKey newName newKey)

/-- Modelled from the spec: `deleteProject` removes the catalog entry and
removes the project's storage unit entirely. -/
def deleteProject (cat : Catalog) (pid : Nat) : Except StoreError Catalog :=
  match lookupProject cat pid with
  | none => .error .projectNotFound
  | some p =>
      .ok { projects := cat.projects.filter (fun q => !(q.id == pid))
            units := cat.units.filter (fun u => !(u.1 == p.storageKey)) }

/-! ## Certificate Authority Manager (spec §4.1) — code absent from src/ -/

/-- Modelled from the spec: a synthesized leaf certificate — bound to its
host and signed by the proxy's root CA. -/
structure LeafCert where
  host : String
  signedBy : String
  serial : Nat
  deriving DecidableEq

/-- Modelled from the spec: the CA Manager's state — the root CA if it could
be loaded or generated at startup (`none` means unavailable, which is fatal),
the per-host certificate cache, and a fresh-serial counter. -/
structure CAState where
  rootCA : Option String
  cache : List (String × (LeafCert × Nat))
  nextSerial : Nat
  deriving DecidableEq

/-- Modelled from the spec: the CA Manager's failure mode. -/
inductive CAError where
  | unavailable
  deriving DecidableEq

/-- Modelled from the spec: synthesis of a host's leaf certificate and
private key, signed by the root CA. -/
def generateLeaf (root host : String) (serial : Nat) : LeafCert × Nat :=
  ({ host := host, signedBy := root, serial := serial }, 2 * serial + 1)

/-- Modelled from the spec: `getLeafCertificate(host)` — fails with
`CAUnavailable` when the root CA is missing; on a cache hit returns the
cached (cert, key) pair unchanged; on a cache miss synthesizes a pair signed
by the root CA and caches it keyed by host. -/
def getLeafCertificate (st : CAState) (host : String) :
    Except CAError ((LeafCert × Nat) × CAState) :=
  match st.rootCA with
  | none => .error .unavailable
  | some root =>
      match st.cache.find? (fun e => e.1 == host) with
      | some e => .ok (e.2, st)
      | none =>
          let pair := generateLeaf root host st.nextSerial
          .ok (pair, { st with cache := st.cache ++ [(host, pair)]
                               nextSerial := st.nextSerial + 1 })

/-! ## Flow Capture Pipeline (spec §4.3) — code absent from src/ -/

/-- Modelled from the spec: the units of intercepted traffic the incremental
parser consumes through `onBytes` — request line, status line, header line,
one body byte, end of message, or malformed data. -/
inductive Token where
  | requestLine (method url : String)
  | statusLine (status : Nat)
  | headerLine (k v : String)
  | bodyByte (b : Nat)
  | endMessage
  | malformed
  deriving DecidableEq

/-- Whether a token is malformed data. -/
def isMalformedTok : Token → Bool
  | .malformed => true
  | _ => false

/-- Whether a token is one body byte. -/
def isBodyByteTok : Token → Bool
  | .bodyByte _ => true
  | _ => false

/-- Number of body bytes in a token stream. -/
def bodyByteCount (ts : List Token) : Nat :=
  (ts.filter isBodyByteTok).length

/-- The header pair carried by a token, if it is a header line. -/
def headerPair : Token → Option (String × String)
  | .headerLine k v => some (k, v)
  | _ => none

/-- The header pairs of a token stream, in arrival order. -/
def headerPairs (ts : List Token) : List (String × String) :=
  ts.filterMap headerPair

/-- The part of the stream successfully parsed before any malformed data. -/
def wellFormedPart (ts : List Token) : List Token :=
  ts.takeWhile (fun t => !isMalformedTok t)

/-- Modelled from the spec: the record the capture pipeline accumulates for
one message — method/URL, headers in order, body bytes up to the configured
cap, plus the `bodyTruncated` and `parseError` flags. -/
structure ParsedMessage where
  method : String
  url : String
  headers : List (String × String)
  body : List Nat
  bodyTruncated : Bool
  parseError : Bool
  deriving DecidableEq

/-- The empty accumulator the capture pipeline starts from. -/
def emptyMessage : ParsedMessage :=
  { method := "", url := "", headers := [], body := []
    bodyTruncated := false, parseError := false }

/-- Modelled from the spec: one incremental parsing step.  Body bytes beyond
the configured cap are dropped and flagged `bodyTruncated` instead of growing
memory; malformed data sets `parseError` and stops parsing, keeping whatever
was successfully parsed; no step can fail. -/
def captureStep (cap : Nat) (acc : ParsedMessage) (t : Token) : ParsedMessage :=
  if acc.parseError then acc
  else
    match t with
    | .requestLine m u => { acc with method := m, url := u }
    | .statusLine _ => acc
    | .headerLine k v => { acc with headers := acc.headers ++ [(k, v)] }
    | .bodyByte b =>
        if acc.body.length < cap then { acc with body := acc.body ++ [b] }
        else { acc with bodyTruncated := true }
    | .endMessage => acc
    | .malformed => { acc with parseError := true }

/-- Modelled from the spec: the capture pipeline's parse of a byte stream fed
through `onBytes` — a total fold of the incremental step. -/
def captureMessage (cap : Nat) (ts : List Token) : ParsedMessage :=
  ts.foldl (captureStep cap) emptyMessage

/-- Modelled from the spec: the relay streams the bytes through unchanged
while feeding a copy to the capture pipeline — parsing is strictly
observational and cannot abort the relay. -/
def relayWithCapture (cap : Nat) (ts : List Token) : List Token × ParsedMessage :=
  (ts, captureMessage cap ts)

/-! ## Listening endpoint (spec §6, README "Proxy") -/

/-- Modelled from the README: the proxy runs on port 8081 by default. -/
def defaultProxyPort : Nat := 8081

/-- Modelled from the spec: the proxy's listening configuration — the TCP
ports it accepts connections on. -/
structure ProxyConfig where
  listenPorts : List Nat
  deriving DecidableEq

/-- Modelled from the spec and README: a single TCP port (8081 by default)
accepts both plain HTTP and CONNECT-tunneled HTTPS; no separate ports per
protocol. -/
def proxyConfig : ProxyConfig :=
  { listenPorts := [defaultProxyPort] }

/-- Modelled from the spec: how the Connection Handler treats an accepted
connection — plain HTTP relay or CONNECT-tunneled TLS interception. -/
inductive HandledAs where
  | plainRelay
  | tlsIntercept
  deriving DecidableEq

/-- The CONNECT method marker at the start of a request line. -/
def connectMarker : String := "CONNECT "

/-- Whether the first character list starts the second one. -/
def startsWithChars : List Char → List Char → Bool
  | [], _ => true
  | _ :: _, [] => false
  | c :: cs, d :: ds => c == d && startsWithChars cs ds

/-- Modelled from the spec: the handler reads the first request line of a
connection; a `CONNECT` request starts TLS interception, everything else is
relayed as plain HTTP — both on the same endpoint. -/
def detectProtocol (firstLine : String) : HandledAs :=
  if startsWithChars connectMarker.data firstLine.data then .tlsIntercept
  else .plainRelay

/-! ## AppTabs component (src/frontend/src/components/AppTabs.tsx) -/

/-- A resender tab as the `AppTabs` component sees it — only its identity
matters to the component. -/
structure ResendTab where
  tabId : Nat
  deriving DecidableEq

/-- Embedded from `AppTabs.tsx`: the count badge inside the Resender tab
trigger — `tabs.length > 0 && <span>{tabs.length}</span>` renders the badge
exactly when the resender context's tabs list is non-empty, displaying
`tabs.length`. -/
def resenderBadge (tabs : List ResendTab) : Option Nat :=
  if tabs.length > 0 then some tabs.length else none

/-- Embedded from `AppTabs.tsx`: the component's state — the active main tab
and whether the mount effect has registered the navigate callback with the
resender context. -/
structure AppTabsComponent where
  activeMainTab : String
  navigateRegistered : Bool
  deriving DecidableEq

/-- Embedded from `AppTabs.tsx`: `useState("home")` — the active main tab is
initialized to "home"; no callback is registered yet. -/
def appTabsInit : AppTabsComponent :=
  { activeMainTab := "home", navigateRegistered := false }

/-- Embedded from `AppTabs.tsx`: the `useEffect` on mount registers the
navigate callback with the resender context. -/
def appTabsMount (s : AppTabsComponent) : AppTabsComponent :=
  { s with navigateRegistered := true }

/-- Embedded from `AppTabs.tsx`: the registered navigate callback —
`setActiveMainTab("resender")` whenever it is invoked, from any state. -/
def appTabsNavigate (s : AppTabsComponent) : AppTabsComponent :=
  { s with activeMainTab := "resender" }

/-! ## Concrete example values used by the witnesses -/

/-- A concrete captured request. -/
def exampleRequest : HttpRequest :=
  { method := "GET", url := "http://example.test/login"
    headers := [(r"Authorization", r"Bearer abc")], body := [1, 2, 3] }

/-- A concrete originally-captured flow. -/
def exampleFlow : Flow :=
  { id := 0, projectId := 1, request := exampleRequest, response := none
    sourceFlowId := none, bodyTruncated := false, parseError := false
    error := none }

/-- A concrete store holding the example flow. -/
def exampleStore : ProjectStore :=
  { flows := [exampleFlow], nextId := 1 }

/-- The empty overrides record: every field absent. -/
def noOverrides : Overrides :=
  { method := none, url := none, headers := none, body := none }

/-- A concrete project name containing a character the sanitizer replaces. -/
def alphaName : String := "alpha one"

/-- A second concrete project name. -/
def betaName : String := "beta"

/-- A fresh project name no existing project uses. -/
def gammaName : String := "gamma"

/-- Another fresh project name, used for a concrete create. -/
def deltaName : String := "delta"

/-- Catalog entry of the first example project. -/
def alphaMeta : ProjectMeta :=
  { id := 1, name := alphaName, storageKey := sanitize alphaName, createdAt := 10 }

/-- Catalog entry of the second example project. -/
def betaMeta : ProjectMeta :=
  { id := 2, name := betaName, storageKey := sanitize betaName, createdAt := 20 }

/-- A concrete catalog with two projects and their storage units. -/
def exampleCatalog : Catalog :=
  { projects := [alphaMeta, betaMeta]
    units := [(sanitize alphaName, [exampleFlow]), (sanitize betaName, [])] }

/-- A concrete root CA identifier. -/
def caRoot : String := "moxy-root-ca"

/-- A CA Manager state whose root CA failed to load. -/
def caUnavailableState : CAState :=
  { rootCA := none, cache := [], nextSerial := 0 }

/-- A CA Manager state with a loaded root CA and an empty cache. -/
def caFreshState : CAState :=
  { rootCA := some caRoot, cache := [], nextSerial := 0 }

/-- A concrete host name. -/
def exampleHost : String := "example.test"

/-- A concrete CONNECT request line. -/
def connectExampleLine : String := "CONNECT example.test:443 HTTP/1.1"

/-- A concrete plain-HTTP request line. -/
def plainExampleLine : String := "GET http://example.test/ HTTP/1.1"

/-! ## Helper lemmas -/

/-- Appending a matching element to a list in which nothing matches makes
`find?` return exactly that element. -/
lemma find?_append_none {α : Type} (p : α → Bool) (l : List α) (x : α)
    (h : l.find? p = none) (hx : p x = true) : (l ++ [x]).find? p = some x := by
  induction l with
  | nil => simp [List.find?, hx]
  | cons a l ih =>
      cases ha : p a with
      | true => simp [List.find?, ha] at h
      | false =>
          rw [List.find?] at h
          rw [ha] at h
          simp only [List.cons_append, List.find?, ha]
          exact ih h

/-- `find?` over a mapped list, when the predicate composed with the map
agrees with a predicate on the original list. -/
lemma find?_map_comm {α β : Type} (f : α → β) (p : β → Bool) (q : α → Bool)
    (hpq : ∀ a, p (f a) = q a) (l : List α) :
    (l.map f).find? p = (l.find? q).map f := by
  induction l with
  | nil => rfl
  | cons a l ih =>
      cases ha : q a with
      | true => simp [List.find?, hpq, ha]
      | false => simp [List.find?, hpq, ha, ih]

/-- `find?` finds nothing in a list filtered to the predicate's complement. -/
lemma find?_filter_not {α : Type} (p : α → Bool) (l : List α) :
    (l.filter (fun a => !(p a))).find? p = none := by
  induction l with
  | nil => rfl
  | cons a l ih =>
      cases ha : p a <;> simp [List.filter, List.find?, ha, ih]

/-- A list all of whose elements fail the predicate yields no `find?` hit. -/
lemma find?_eq_none_of_all_not {α : Type} (p : α → Bool) (l : List α)
    (h : l.all (fun a => !(p a)) = true) : l.find? p = none := by
  rw [List.find?_eq_none]
  intro x hx
  have := List.all_eq_true.mp h x hx
  simp at this
  simp [this]

/-- After the rename migration step, looking up the new key finds exactly the
unit that was stored under the old key, provided no unit already used the new
key. -/
lemma find?_rename_moved (oldK newK : String) (l : List (String × List Flow))
    (hfresh : l.all (fun u => !(u.1 == newK)) = true) :
    (l.map (fun u => if u.1 == oldK then (newK, u.2) else u)).find?
        (fun u => u.1 == newK) =
      (l.find? (fun u => u.1 == oldK)).map (fun u => (newK, u.2)) := by
  induction l with
  | nil => rfl
  | cons u l ih =>
      rw [List.all_cons, Bool.and_eq_true] at hfresh
      have hnew : (u.1 == newK) = false := by simpa using hfresh.1
      rw [List.map_cons]
      cases hu : (u.1 == oldK) with
      | true =>
          rw [if_pos rfl,
            @List.find?_cons_of_pos _ (fun v => v.1 == newK) (newK, u.2) _ (by simp),
            @List.find?_cons_of_pos _ (fun v => v.1 == oldK) u _ hu]
          rfl
      | false =>
          rw [if_neg (by simp),
            @List.find?_cons_of_neg _ (fun v => v.1 == newK) u _ (by simp [hnew]),
            @List.find?_cons_of_neg _ (fun v => v.1 == oldK) u _ (by simp [hu])]
          exact ih hfresh.2

/-- After the rename migration step, no unit remains under the old key. -/
lemma find?_rename_old_gone (oldK newK : String) (l : List (String × List Flow))
    (hne : (newK == oldK) = false) :
    (l.map (fun u => if u.1 == oldK then (newK, u.2) else u)).find?
        (fun u => u.1 == oldK) = none := by
  induction l with
  | nil => rfl
  | cons u l ih =>
      rw [List.map_cons]
      cases hu : (u.1 == oldK) with
      | true =>
          rw [if_pos rfl,
            @List.find?_cons_of_neg _ (fun v => v.1 == oldK) (newK, u.2) _ (by simp [hne])]
          exact ih
      | false =>
          rw [if_neg (by simp),
            @List.find?_cons_of_neg _ (fun v => v.1 == oldK) u _ (by simp [hu])]
          exact ih

/-! ## Claim theorems -/

/-- C1: `resend(baseFlow, overrides)` persisted through the store produces a
new Flow whose request takes each of method/URL/headers/body from the
overrides when the field is present and from the base flow's request when it
is absent, whose `sourceFlowId` equals the base flow's id; and the
previously persisted flows — the base flow included — are untouched: the
resulting store is exactly the old records followed by the one new record. -/
theorem resend_builds_from_base_with_overrides (st : ProjectStore) (base : Flow)
    (o : Overrides) (att : Except NetError HttpResponse) :
    (st.resendOp base o att).2.request.method = o.method.getD base.request.method ∧
    (st.resendOp base o att).2.request.url = o.url.getD base.request.url ∧
    (st.resendOp base o att).2.request.headers = o.headers.getD base.request.headers ∧
    (st.resendOp base o att).2.request.body = o.body.getD base.request.body ∧
    (st.resendOp base o att).2.sourceFlowId = some base.id ∧
    (st.resendOp base o att).1.flows = st.flows ++ [(st.resendOp base o att).2] := by
  cases att <;> simp [ProjectStore.resendOp, resend, applyOverrides]

/-- C6: a resend whose underlying network attempt fails returns normally (the
function is total) with a Flow whose `error` field is populated with the
failure, no response, the request that was actually sent still recorded, and
`sourceFlowId` linking back to the base flow — the failed attempt remains
inspectable. -/
theorem resend_failure_surfaces_error (nid : Nat) (base : Flow) (o : Overrides)
    (e : NetError) :
    (resend nid base o (.error e)).error = some (describeNetError e) ∧
    (resend nid base o (.error e)).response = none ∧
    (resend nid base o (.error e)).request = applyOverrides base.request o ∧
    (resend nid base o (.error e)).sourceFlowId = some base.id := by
  simp [resend]

/-- C2: persisted flows are append-only — `append` and the persisted resend
keep every previously stored flow; a resend-derived flow's `sourceFlowId`
points at the edited origin; and `query`/`get` only ever return fully
persisted records of the store, never a half-written flow. -/
theorem flows_append_only (st : ProjectStore) (f base g : Flow) (o : Overrides)
    (att : Except NetError HttpResponse) (pid fid : Nat)
    (hg : g ∈ st.flows) :
    g ∈ (st.append f).1.flows ∧
    g ∈ (st.resendOp base o att).1.flows ∧
    (st.resendOp base o att).2.sourceFlowId = some base.id ∧
    st.query pid ⊆ st.flows ∧
    getObservesStored st pid fid := by
  refine ⟨?_, ?_, ?_, ?_, ?_⟩
  · exact List.mem_append_left _ hg
  · exact List.mem_append_left _ hg
  · cases att <;> simp [ProjectStore.resendOp, resend]
  · exact fun a ha => List.mem_of_mem_filter ha
  · unfold getObservesStored ProjectStore.get
    cases hf : st.flows.find? (fun fl => fl.projectId == pid && fl.id == fid) with
    | none => trivial
    | some fl => exact List.mem_of_find?_eq_some hf

/-- C2 witness: the append-only facts at a concrete store holding one flow. -/
theorem flows_append_only_witness :
    exampleFlow ∈ (exampleStore.append exampleFlow).1.flows ∧
    exampleFlow ∈ (exampleStore.resendOp exampleFlow noOverrides
      (.error .timeout)).1.flows ∧
    (exampleStore.resendOp exampleFlow noOverrides
      (.error .timeout)).2.sourceFlowId = some exampleFlow.id ∧
    exampleStore.query 1 ⊆ exampleStore.flows ∧
    getObservesStored exampleStore 1 0 :=
  flows_append_only exampleStore exampleFlow exampleFlow exampleFlow noOverrides
    (.error .timeout) 1 0 (by simp [exampleStore])

/-- C10: the `AppTabs` component initializes the active main tab to "home";
the mount effect registers the navigate callback with the resender context;
and the registered callback sets the active main tab to "resender" whenever
it is invoked, from any state. -/
theorem appTabs_init_home_navigate_resender (s : AppTabsComponent) :
    appTabsInit.activeMainTab = "home" ∧
    (appTabsMount appTabsInit).navigateRegistered = true ∧
    (appTabsNavigate s).activeMainTab = "resender" :=
  ⟨rfl, rfl, rfl⟩

/-- C8: the proxy's listening configuration is a single TCP port, 8081 by
default, and protocol detection on that one endpoint routes a CONNECT request
line to TLS interception and any other request line to the plain HTTP relay —
no separate port per protocol. -/
theorem single_port_accepts_both_protocols :
    proxyConfig.listenPorts = [defaultProxyPort] ∧
    defaultProxyPort = 8081 ∧
    proxyConfig.listenPorts.length = 1 ∧
    detectProtocol connectExampleLine = HandledAs.tlsIntercept ∧
    detectProtocol plainExampleLine = HandledAs.plainRelay := by
  refine ⟨rfl, rfl, rfl, by decide, by decide⟩

/-- C9: in `AppTabs`, the count badge inside the Resender tab trigger is
rendered exactly when the resender context's tabs list is non-empty, and when
rendered it displays exactly the number of tabs. -/
theorem resender_badge_iff_tabs_nonempty (ts1 ts2 : List ResendTab)
    (h1 : ts1 = []) (h2 : ts2 ≠ []) :
    resenderBadge ts1 = none ∧ resenderBadge ts2 = some ts2.length := by
  subst h1
  refine ⟨rfl, ?_⟩
  have hl : ts2.length > 0 := List.length_pos.mpr h2
  simp [resenderBadge, hl]

/-- C9 witness: the badge at a concrete empty and a concrete one-element
tabs list. -/
theorem resender_badge_witness :
    resenderBadge [] = none ∧
    resenderBadge [ResendTab.mk 0] = some [ResendTab.mk 0].length :=
  resender_badge_iff_tabs_nonempty [] [ResendTab.mk 0] rfl (by decide)

/-- C5: `getLeafCertificate` fails with `CAUnavailable` when the root CA
could not be loaded or generated; on the first call for a host it synthesizes
a leaf certificate bound to that host and signed by the root CA and caches it
keyed by the host; the subsequent call for the same host returns exactly the
same cached (cert, key) pair with the cache unchanged. -/
theorem leaf_certificate_cached (st0 st : CAState) (host root : String)
    (h0 : st0.rootCA = none) (hr : st.rootCA = some root)
    (hmiss : st.cache.find? (fun e => e.1 == host) = none) :
    getLeafCertificate st0 host = .error .unavailable ∧
    getLeafCertificate st host =
      .ok (generateLeaf root host st.nextSerial,
        { st with cache := st.cache ++ [(host, generateLeaf root host st.nextSerial)]
                  nextSerial := st.nextSerial + 1 }) ∧
    getLeafCertificate
        { st with cache := st.cache ++ [(host, generateLeaf root host st.nextSerial)]
                  nextSerial := st.nextSerial + 1 } host =
      .ok (generateLeaf root host st.nextSerial,
        { st with cache := st.cache ++ [(host, generateLeaf root host st.nextSerial)]
                  nextSerial := st.nextSerial + 1 }) ∧
    (generateLeaf root host st.nextSerial).1.host = host ∧
    (generateLeaf root host st.nextSerial).1.signedBy = root := by
  refine ⟨?_, ?_, ?_, rfl, rfl⟩
  · simp [getLeafCertificate, h0]
  · simp [getLeafCertificate, hr, hmiss]
  · have hfind : (st.cache ++ [(host, generateLeaf root host st.nextSerial)]).find?
        (fun e => e.1 == host) = some (host, generateLeaf root host st.nextSerial) :=
      find?_append_none _ _ _ hmiss (by simp)
    simp [getLeafCertificate, hr, hfind]

/-- C5 witness: the CA Manager at a concrete unavailable state and a concrete
fresh state with an empty cache. -/
theorem leaf_certificate_cached_witness :
    getLeafCertificate caUnavailableState exampleHost = .error .unavailable ∧
    getLeafCertificate caFreshState exampleHost =
      .ok (generateLeaf caRoot exampleHost caFreshState.nextSerial,
        { caFreshState with
            cache := caFreshState.cache ++
              [(exampleHost, generateLeaf caRoot exampleHost caFreshState.nextSerial)]
            nextSerial := caFreshState.nextSerial + 1 }) ∧
    getLeafCertificate
        { caFreshState with
            cache := caFreshState.cache ++
              [(exampleHost, generateLeaf caRoot exampleHost caFreshState.nextSerial)]
            nextSerial := caFreshState.nextSerial + 1 } exampleHost =
      .ok (generateLeaf caRoot exampleHost caFreshState.nextSerial,
        { caFreshState with
            cache := caFreshState.cache ++
              [(exampleHost, generateLeaf caRoot exampleHost caFreshState.nextSerial)]
            nextSerial := caFreshState.nextSerial + 1 }) ∧
    (generateLeaf caRoot exampleHost caFreshState.nextSerial).1.host = exampleHost ∧
    (generateLeaf caRoot exampleHost caFreshState.nextSerial).1.signedBy = caRoot :=
  leaf_certificate_cached caUnavailableState caFreshState exampleHost caRoot
    rfl rfl rfl

/-- C4: `renameProject` either performs the migration as one atomic step or
fails with no partial state: when the target storage key is already in use it
returns `RenameConflict` and produces no new catalog, so the original project
is untouched; when the target key is free it returns exactly the catalog
produced by the single `applyRename` step, which updates the catalog entry
and moves the storage unit together. -/
theorem rename_conflict_or_atomic (cat cat2 : Catalog) (pid pid2 : Nat)
    (newName newName2 : String) (p p2 : ProjectMeta)
    (hp : lookupProject cat pid = some p)
    (hne : (sanitize newName == p.storageKey) = false)
    (hconf : keyInUse cat (sanitize newName) = true)
    (hp2 : lookupProject cat2 pid2 = some p2)
    (hne2 : (sanitize newName2 == p2.storageKey) = false)
    (hok : keyInUse cat2 (sanitize newName2) = false) :
    renameProject cat pid newName = .error .renameConflict ∧
    renameProject cat2 pid2 newName2 =
      .ok (applyRename cat2 pid2 p2.storageKey newName2 (sanitize newName2)) := by
  constructor
  · unfold renameProject
    rw [hp]
    simp [hne, hconf]
  · unfold renameProject
    rw [hp2]
    simp [hne2, hok]

/-- C4 witness: renaming the first example project onto the second project's
storage key is rejected with `RenameConflict`, while renaming the second
project to a fresh name succeeds atomically. -/
theorem rename_conflict_or_atomic_witness :
    renameProject exampleCatalog 1 betaName = .error .renameConflict ∧
    renameProject exampleCatalog 2 gammaName =
      .ok (applyRename exampleCatalog 2 betaMeta.storageKey gammaName
        (sanitize gammaName)) :=
  rename_conflict_or_atomic exampleCatalog exampleCatalog 1 2 betaName gammaName
    alphaMeta betaMeta (by decide) (by decide) (by decide) (by decide) (by decide)
    (by decide)

/-- C3: the persistent layout keeps one catalog of project metadata and one
storage unit per project keyed by the sanitized project name:
`createProject` creates the project's own empty unit under its sanitized
name; a successful `renameProject` updates the catalog entry and renames the
storage unit consistently — the project's flows are afterwards stored under
the new sanitized key and the old key holds no unit; `deleteProject` removes
the catalog entry and its storage unit entirely. -/
theorem storage_layout_per_project (cat : Catalog) (pid nid now : Nat)
    (p : ProjectMeta) (newName cname : String)
    (hp : lookupProject cat pid = some p)
    (hne : (sanitize newName == p.storageKey) = false)
    (hkey : keyInUse cat (sanitize newName) = false)
    (hfreshU : cat.units.all (fun u => !(u.1 == sanitize newName)) = true)
    (hfreshC : cat.units.all (fun u => !(u.1 == sanitize cname)) = true) :
    unitFor (createProject cat nid cname now) (sanitize cname) = some [] ∧
    renameProject cat pid newName =
      .ok (applyRename cat pid p.storageKey newName (sanitize newName)) ∧
    unitFor (applyRename cat pid p.storageKey newName (sanitize newName))
        (sanitize newName) = unitFor cat p.storageKey ∧
    unitFor (applyRename cat pid p.storageKey newName (sanitize newName))
        p.storageKey = none ∧
    lookupProject (applyRename cat pid p.storageKey newName (sanitize newName))
        pid = some { p with name := newName, storageKey := sanitize newName } ∧
    deleteProject cat pid =
      .ok { projects := cat.projects.filter (fun q => !(q.id == pid))
            units := cat.units.filter (fun u => !(u.1 == p.storageKey)) } ∧
    unitFor { projects := cat.projects.filter (fun q => !(q.id == pid))
              units := cat.units.filter (fun u => !(u.1 == p.storageKey)) }
        p.storageKey = none ∧
    lookupProject { projects := cat.projects.filter (fun q => !(q.id == pid))
                    units := cat.units.filter (fun u => !(u.1 == p.storageKey)) }
        pid = none := by
  refine ⟨?_, ?_, ?_, ?_, ?_, ?_, ?_, ?_⟩
  · have hnone := find?_eq_none_of_all_not _ _ hfreshC
    have happ := find?_append_none (fun u => u.1 == sanitize cname) cat.units
      (sanitize cname, []) hnone (by simp)
    simp [unitFor, createProject, happ]
  · unfold renameProject
    rw [hp]
    simp [hne, hkey]
  · unfold unitFor applyRename
    rw [find?_rename_moved p.storageKey (sanitize newName) cat.units hfreshU]
    cases cat.units.find? (fun u => u.1 == p.storageKey) <;> rfl
  · unfold unitFor applyRename
    rw [find?_rename_old_gone p.storageKey (sanitize newName) cat.units hne]
    rfl
  · have hp' : cat.projects.find? (fun q => q.id == pid) = some p := hp
    have hid := List.find?_some hp'
    simp only [] at hid
    have hcomm := find?_map_comm
      (fun q => if q.id == pid then
        { q with name := newName, storageKey := sanitize newName } else q)
      (fun q => q.id == pid) (fun q => q.id == pid)
      (fun a => by cases h : (a.id == pid) <;> simp [h]) cat.projects
    unfold lookupProject applyRename
    rw [hcomm]
    unfold lookupProject at hp
    rw [hp]
    simp [hid]
    intro h
    exact absurd (by simpa using hid) h
  · unfold deleteProject
    rw [hp]
  · simp [unitFor, find?_filter_not]
  · simp [lookupProject, find?_filter_not]

/-- C3 witness: the layout facts at the concrete two-project catalog —
creating "delta", renaming the first project to "gamma", and deleting the
first project. -/
theorem storage_layout_per_project_witness :
    unitFor (createProject exampleCatalog 3 deltaName 30) (sanitize deltaName) =
      some [] ∧
    renameProject exampleCatalog 1 gammaName =
      .ok (applyRename exampleCatalog 1 alphaMeta.storageKey gammaName
        (sanitize gammaName)) ∧
    unitFor (applyRename exampleCatalog 1 alphaMeta.storageKey gammaName
        (sanitize gammaName)) (sanitize gammaName) =
      unitFor exampleCatalog alphaMeta.storageKey ∧
    unitFor (applyRename exampleCatalog 1 alphaMeta.storageKey gammaName
        (sanitize gammaName)) alphaMeta.storageKey = none ∧
    lookupProject (applyRename exampleCatalog 1 alphaMeta.storageKey gammaName
        (sanitize gammaName)) 1 =
      some { alphaMeta with name := gammaName, storageKey := sanitize gammaName } ∧
    deleteProject exampleCatalog 1 =
      .ok { projects := exampleCatalog.projects.filter (fun q => !(q.id == 1))
            units := exampleCatalog.units.filter
              (fun u => !(u.1 == alphaMeta.storageKey)) } ∧
    unitFor { projects := exampleCatalog.projects.filter (fun q => !(q.id == 1))
              units := exampleCatalog.units.filter
                (fun u => !(u.1 == alphaMeta.storageKey)) }
        alphaMeta.storageKey = none ∧
    lookupProject
        { projects := exampleCatalog.projects.filter (fun q => !(q.id == 1))
          units := exampleCatalog.units.filter
            (fun u => !(u.1 == alphaMeta.storageKey)) } 1 = none :=
  storage_layout_per_project exampleCatalog 1 3 30 alphaMeta gammaName deltaName
    (by decide) (by decide) (by decide) (by decide) (by decide)

/-- Once `parseError` is set, every further capture step leaves the
accumulated message untouched. -/
lemma captureFold_stopped (cap : Nat) (ts : List Token) (acc : ParsedMessage)
    (h : acc.parseError = true) : ts.foldl (captureStep cap) acc = acc := by
  induction ts with
  | nil => rfl
  | cons t ts ih =>
      have hstep : captureStep cap acc t = acc := by
        unfold captureStep
        rw [h]
        rfl
      rw [List.foldl_cons, hstep, ih]

/-- The capture fold's behaviour from any clean accumulator whose body is
within the cap: `parseError` records whether malformed data occurred, the
body grows by the well-formed stream part's body bytes but never beyond the
cap, `bodyTruncated` records exactly whether the cap was exceeded, and the
headers of the well-formed part are appended in order. -/
lemma captureFold_spec (cap : Nat) (ts : List Token) : ∀ acc : ParsedMessage,
    acc.parseError = false → acc.body.length ≤ cap →
    ((ts.foldl (captureStep cap) acc).parseError = ts.any isMalformedTok ∧
     (ts.foldl (captureStep cap) acc).body.length =
       min (acc.body.length + bodyByteCount (wellFormedPart ts)) cap ∧
     (ts.foldl (captureStep cap) acc).bodyTruncated =
       (acc.bodyTruncated ||
         decide (cap < acc.body.length + bodyByteCount (wellFormedPart ts))) ∧
     (ts.foldl (captureStep cap) acc).headers =
       acc.headers ++ headerPairs (wellFormedPart ts)) := by
  induction ts with
  | nil =>
      intro acc hpe hlen
      refine ⟨hpe, ?_, ?_, by simp [wellFormedPart, headerPairs]⟩
      · simp [wellFormedPart, bodyByteCount, Nat.min_eq_left hlen]
      · simp [wellFormedPart, bodyByteCount, Nat.not_lt.mpr hlen]
  | cons t ts ih =>
      intro acc hpe hlen
      cases t with
      | requestLine m u =>
          have hstep : captureStep cap acc (.requestLine m u) =
              { acc with method := m, url := u } := by
            unfold captureStep
            rw [hpe]
            rfl
          have hres := ih { acc with method := m, url := u } hpe hlen
          rw [List.foldl_cons, hstep]
          simpa [wellFormedPart, isMalformedTok, bodyByteCount, headerPairs,
            isBodyByteTok, headerPair] using hres
      | statusLine s =>
          have hstep : captureStep cap acc (.statusLine s) = acc := by
            unfold captureStep
            rw [hpe]
            rfl
          have hres := ih acc hpe hlen
          rw [List.foldl_cons, hstep]
          simpa [wellFormedPart, isMalformedTok, bodyByteCount, headerPairs,
            isBodyByteTok, headerPair] using hres
      | endMessage =>
          have hstep : captureStep cap acc .endMessage = acc := by
            unfold captureStep
            rw [hpe]
            rfl
          have hres := ih acc hpe hlen
          rw [List.foldl_cons, hstep]
          simpa [wellFormedPart, isMalformedTok, bodyByteCount, headerPairs,
            isBodyByteTok, headerPair] using hres
      | headerLine k v =>
          have hstep : captureStep cap acc (.headerLine k v) =
              { acc with headers := acc.headers ++ [(k, v)] } := by
            unfold captureStep
            rw [hpe]
            rfl
          have hres := ih { acc with headers := acc.headers ++ [(k, v)] } hpe hlen
          rw [List.foldl_cons, hstep]
          simpa [wellFormedPart, isMalformedTok, bodyByteCount, headerPairs,
            isBodyByteTok, headerPair] using hres
      | malformed =>
          have hstep : captureStep cap acc .malformed =
              { acc with parseError := true } := by
            unfold captureStep
            rw [hpe]
            rfl
          rw [List.foldl_cons, hstep,
            captureFold_stopped cap ts { acc with parseError := true } rfl]
          refine ⟨by simp [isMalformedTok], ?_, ?_,
            by simp [wellFormedPart, isMalformedTok, headerPairs]⟩
          · simp [wellFormedPart, isMalformedTok, bodyByteCount,
              Nat.min_eq_left hlen]
          · simp [wellFormedPart, isMalformedTok, bodyByteCount,
              Nat.not_lt.mpr hlen]
      | bodyByte b =>
          by_cases hlt : acc.body.length < cap
          · have hstep : captureStep cap acc (.bodyByte b) =
                { acc with body := acc.body ++ [b] } := by
              simp [captureStep, hpe, hlt]
            have hlen' : ({ acc with body := acc.body ++ [b] } :
                ParsedMessage).body.length ≤ cap := by
              simp
              omega
            obtain ⟨h1, h2, h3, h4⟩ := ih { acc with body := acc.body ++ [b] } hpe hlen'
            rw [List.foldl_cons, hstep]
            refine ⟨?_, ?_, ?_, ?_⟩
            · simpa [isMalformedTok] using h1
            · simpa [wellFormedPart, isMalformedTok, bodyByteCount, isBodyByteTok,
                Nat.add_assoc, Nat.add_comm, Nat.add_left_comm] using h2
            · simpa [wellFormedPart, isMalformedTok, bodyByteCount, isBodyByteTok,
                Nat.add_assoc, Nat.add_comm, Nat.add_left_comm] using h3
            · simpa [wellFormedPart, isMalformedTok, headerPairs, headerPair] using h4
          · have hcap : acc.body.length = cap :=
              Nat.le_antisymm hlen (Nat.not_lt.mp hlt)
            have hstep : captureStep cap acc (.bodyByte b) =
                { acc with bodyTruncated := true } := by
              simp [captureStep, hpe, hlt]
            obtain ⟨h1, h2, h3, h4⟩ := ih { acc with bodyTruncated := true } hpe hlen
            rw [List.foldl_cons, hstep]
            refine ⟨?_, ?_, ?_, ?_⟩
            · simpa [isMalformedTok] using h1
            · rw [h2]
              simp only [wellFormedPart, isMalformedTok, bodyByteCount,
                isBodyByteTok, List.takeWhile_cons, List.filter_cons]
              simp
              omega
            · rw [h3]
              have hcount : bodyByteCount (wellFormedPart (Token.bodyByte b :: ts)) =
                  bodyByteCount (wellFormedPart ts) + 1 := by
                simp [wellFormedPart, isMalformedTok, bodyByteCount, isBodyByteTok]
              have hlt2 : cap <
                  acc.body.length + (bodyByteCount (wellFormedPart ts) + 1) := by
                omega
              rw [hcount]
              simp [hlt2]
            · simpa [wellFormedPart, isMalformedTok, headerPairs, headerPair] using h4

/-- C7: for every byte stream fed to the capture pipeline: the accumulated
body never exceeds the configured cap, and `bodyTruncated` is set exactly
when the stream's (well-formed) body exceeds the cap; malformed trailing
data sets `parseError` while the headers parsed before it are still emitted;
and the relay passes the stream through unchanged whatever the parse outcome
— parsing is total and strictly observational, so it can never abort the
underlying connection relay. -/
theorem capture_truncates_flags_and_never_aborts_relay (cap : Nat)
    (ts : List Token) :
    (captureMessage cap ts).body.length ≤ cap ∧
    (captureMessage cap ts).bodyTruncated =
      decide (cap < bodyByteCount (wellFormedPart ts)) ∧
    (captureMessage cap ts).parseError = ts.any isMalformedTok ∧
    (captureMessage cap ts).headers = headerPairs (wellFormedPart ts) ∧
    (relayWithCapture cap ts).1 = ts := by
  obtain ⟨h1, h2, h3, h4⟩ :=
    captureFold_spec cap ts emptyMessage rfl (by simp [emptyMessage])
  refine ⟨?_, ?_, h1, by simpa [emptyMessage] using h4, rfl⟩
  · rw [captureMessage, h2]
    exact Nat.min_le_right _ _
  · rw [captureMessage, h3]
    simp [emptyMessage]

end Moxy
